import Mathlib

/-!
Verification development for the agent orchestration engine of the
thread repository.  The definitions below are shallow embeddings of the
TypeScript sources: the agent scheduler (two revisions of ai.ts, called
V2 and V3 here, where V3 is the revision imported by the backend entry
point), the human query channel, the tree registry, and the fork and
wait primitives of the sandbox tool scope.  External effects (the
decision oracle, the streamed model output, the human responder and
intervention writes) are supplied as explicit inputs through an Env
record, so every run of the embedded scheduler is a pure computation.
-/

deriving instance DecidableEq for Except

namespace Thread

/-! ## Character and string helpers

JavaScript string primitives used by the sources, written as structural
recursions over the character list so that concrete runs evaluate inside
the kernel. -/

/-- ASCII whitespace, the character class relevant to the trims performed
by the sources. -/
def wsChar (c : Char) : Bool :=
  c = ' ' || c = '\t' || c = '\n' || c = '\r'

/-- Drop leading whitespace characters. -/
def dropWs : List Char → List Char
  | [] => []
  | c :: cs => if wsChar c then dropWs cs else c :: cs

/-- Model of JavaScript String.prototype.trim. -/
def trimStr (s : String) : String :=
  ⟨(dropWs (dropWs s.data.reverse).reverse)⟩

/-- Lower-case one character on the ASCII range, the behaviour of
String.prototype.toLowerCase on the inputs involved. -/
def lowerChar (c : Char) : Char :=
  if 65 ≤ c.toNat && c.toNat ≤ 90 then Char.ofNat (c.toNat + 32) else c

/-- Model of JavaScript String.prototype.toLowerCase. -/
def lowerStr (s : String) : String :=
  ⟨s.data.map lowerChar⟩

/-- Split on a newline separator, accumulator form. -/
def splitOnNl : List Char → List Char → List String
  | [], acc => [⟨acc.reverse⟩]
  | c :: cs, acc =>
    if c = '\n' then ⟨acc.reverse⟩ :: splitOnNl cs [] else splitOnNl cs (c :: acc)

/-- Model of JavaScript split with separator newline. -/
def splitLines (s : String) : List String :=
  splitOnNl s.data []

/-- Substring test on character lists. -/
def isSubList (p : List Char) : List Char → Bool
  | [] => p.isEmpty
  | c :: cs => p.isPrefixOf (c :: cs) || isSubList p cs

/-- Model of JavaScript String.prototype.includes. -/
def hasSubstr (s pat : String) : Bool :=
  isSubList pat.data s.data

/-- Model of JavaScript String.prototype.startsWith. -/
def strStartsWith (s pre : String) : Bool :=
  pre.data.isPrefixOf s.data

/-- Decimal digits of a number, fuel form. -/
def natToStrAux : Nat → Nat → List Char
  | 0, _ => []
  | fuel + 1, n =>
    if n = 0 then [] else natToStrAux fuel (n / 10) ++ [Char.ofNat (48 + n % 10)]

/-- Decimal rendering of a natural number, used for interpolated error
messages. -/
def natToStr (n : Nat) : String :=
  if n = 0 then "0" else ⟨natToStrAux 20 n⟩

/-! ## Data model

AgentState mirrors the interface of the same name in ai.ts.  Task ids
are drawn from a freshness counter, standing for the randomUUID values
of the source; the untyped metadata record of the source, a diagnostic
field, is not modelled. -/

/-- The status union of ai.ts. -/
inductive AgentStatus
  | running
  | completed
  | deleted
  | modified
  | error
  | awaitingUser
deriving Repr, DecidableEq

/-- One CoreMessage: a role tag and text content. -/
structure Msg where
  role : String
  content : String
deriving Repr, DecidableEq

/-- The per-task record of ai.ts. -/
structure AgentState where
  agentId : Nat
  parentId : Option Nat
  userContent : String
  userComment : String
  status : AgentStatus
  subagents : List Nat
  messages : List Msg
  result : Option String
  createdAt : Nat
deriving Repr, DecidableEq

/-- The snapshot yielded as an agent-state chunk: the spread of the state
record with messages set to undefined. -/
structure Snap where
  agentId : Nat
  parentId : Option Nat
  userContent : String
  userComment : String
  status : AgentStatus
  subagents : List Nat
  result : Option String
  createdAt : Nat
deriving Repr, DecidableEq

/-- Project a state to its snapshot. -/
def snapOf (st : AgentState) : Snap :=
  ⟨st.agentId, st.parentId, st.userContent, st.userComment, st.status,
   st.subagents, st.result, st.createdAt⟩

/-- One value yielded by an agent generator or by the UI message stream of
the main execution.  The raw constructor stands for a bare string value;
none of the streams of the source ever produce one, and the constructor
exists so that the string filter inside fork can be translated as
written. -/
inductive Chunk
  | stateSnap (s : Snap)
  | textDelta (delta : String)
  | toolResult (toolName : String)
  | otherChunk
  | raw (s : String)
deriving Repr, DecidableEq

/-- The registry is a finite map from task id to state, modelled as an
association list with the Map semantics of the source. -/
abbrev Tree := List (Nat × AgentState)

/-- Map get. -/
def treeLookup : Tree → Nat → Option AgentState
  | [], _ => none
  | (i, st) :: rest, j => if i = j then some st else treeLookup rest j

/-- Map set: insert or replace. -/
def treeSet : Tree → Nat → AgentState → Tree
  | [], j, st => [(j, st)]
  | (i, s) :: rest, j, st =>
    if i = j then (j, st) :: rest else (i, s) :: treeSet rest j st

/-- Field write through an aliased reference: visible in the map exactly
when the entry is still present. -/
def treeMutate : Tree → Nat → AgentState → Tree
  | [], _, _ => []
  | (i, s) :: rest, j, st =>
    if i = j then (j, st) :: rest else (i, s) :: treeMutate rest j st

/-- Map delete. -/
def treeRemove (t : Tree) (i : Nat) : Tree :=
  t.filter (fun p => p.1 ≠ i)

/-- The overrides accepted by userIntervention. -/
structure Overrides where
  userComment : Option String := none
  userContent : Option String := none
  status : Option AgentStatus := none
deriving Repr, DecidableEq

/-- userIntervention of ai.ts: apply the supplied overrides to the
registered entry, reporting whether the id was known. -/
def userIntervention (tree : Tree) (agentId : Nat) (ov : Overrides) : Tree × Bool :=
  match treeLookup tree agentId with
  | none => (tree, false)
  | some st =>
    let st1 := match ov.userComment with
      | some c => { st with userComment := c }
      | none => st
    let st2 := match ov.userContent with
      | some c => { st1 with userContent := c }
      | none => st1
    let st3 := match ov.status with
      | some s => { st2 with status := s }
      | none => st2
    (treeMutate tree agentId st3, true)

/-- Result record of one child task, as collected by the parent. -/
structure SubResult where
  agentId : Nat
  result : Option String
  status : AgentStatus
deriving Repr, DecidableEq

/-- The orchestrator state threaded through a run: the registry, the id
freshness counter, and observable logs — the prompts delivered to the
human query handler, the registration events of the registry, and the
number of blocking-question oracle calls. -/
structure Sys where
  tree : Tree
  nextId : Nat
  queries : List (Nat × String)
  regs : List (Nat × List Msg)
  syncCalls : Nat
deriving Repr, DecidableEq

/-- JavaScript truthiness of a nullable string. -/
def optTruthy : Option String → Bool
  | none => false
  | some s => s ≠ ""

/-- The expression value or empty-string, as in result or-else empty. -/
def strOrEmpty : Option String → String
  | none => ""
  | some s => s

/-- The expression value or-else null: an empty string collapses to
absent. -/
def strOrNone : Option String → Option String
  | none => none
  | some s => if s = "" then none else some s

/-- The external world of one run: the query handler and a possible
concurrent intervention during a suspension, the decision oracle calls
(each may fail, modelling a thrown transport error), the chunk stream of
the main execution, the intervention schedule of comment writes observed
at successive checkpoints, and the final screenshot capture of the V3
revision. -/
structure Env where
  handler : Option (Nat → String → Option String)
  interv : Option Overrides
  needsClarV3 : String → Except String (Option String)
  syncQ : String → List Msg → Except String (Option String)
  subqRaw : String → List Msg → Except String String
  summarizeRaw : String → List SubResult → Except String String
  related : String → String → Except String String
  mainChunks : List Msg → Except String (List Chunk)
  commentAt : Nat → Option String
  finalShot : Except String Unit

/-! ## Human query channel -/

/-- Output of one queryUser call: the registry at the start of the
suspension, the registry after resumption, the answer, and whether the
handler was actually invoked. -/
structure QueryOut where
  begun : Tree
  final : Tree
  answer : Option String
  delivered : Bool
deriving Repr, DecidableEq

/-- queryUser of ai.ts.  With no registered handler it returns null at
once, touching nothing.  Otherwise the registered entry, when present, is
set to awaiting-user for the suspension; a concurrent intervention may
rewrite the entry while suspended; on resumption the status reverts to
running exactly when it is still awaiting-user. -/
def queryUser (handler : Option (Nat → String → Option String))
    (interv : Option Overrides) (tree : Tree) (agentId : Nat) (prompt : String) :
    QueryOut :=
  match handler with
  | none => ⟨tree, tree, none, false⟩
  | some h =>
    match treeLookup tree agentId with
    | none =>
      let mid := match interv with
        | none => tree
        | some ov => (userIntervention tree agentId ov).1
      ⟨tree, mid, h agentId prompt, true⟩
    | some st =>
      let begun := treeMutate tree agentId { st with status := .awaitingUser }
      let mid := match interv with
        | none => begun
        | some ov => (userIntervention begun agentId ov).1
      let ans := h agentId prompt
      let fin := match treeLookup mid agentId with
        | some st2 =>
          if st2.status = .awaitingUser then
            treeMutate mid agentId { st2 with status := .running }
          else mid
        | none => mid
      ⟨begun, fin, ans, true⟩

/-- queryUser lifted to the orchestrator state, recording the delivered
prompt. -/
def runQuery (env : Env) (sys : Sys) (agentId : Nat) (prompt : String) :
    Sys × Option String :=
  let q := queryUser env.handler env.interv sys.tree agentId prompt
  ({ sys with
      tree := q.final,
      queries := if q.delivered then sys.queries ++ [(agentId, prompt)] else sys.queries },
   q.answer)

/-- Re-read the aliased state object through the registry. -/
def reSt (sys : Sys) (id : Nat) (st : AgentState) : AgentState :=
  (treeLookup sys.tree id).getD st

/-- Mirror a state mutation into the registry. -/
def mutSt (sys : Sys) (st : AgentState) : Sys :=
  { sys with tree := treeMutate sys.tree st.agentId st }

/-! ## Oracle helpers shared by both revisions -/

/-- The ambiguity marker list of the V2 decideNeedsClarification
heuristic. -/
def ambiguousMarkers : List String :=
  ["?", "unclear", "not sure", "maybe", "possibly"]

/-- decideNeedsClarification of the V2 revision: a local heuristic over
lower-cased content. -/
def decideNeedsClarification (content : String) : Bool :=
  ambiguousMarkers.any (fun mk => hasSubstr (lowerStr content) mk)

/-- The parsing tail of generateAsyncSubquestions: a NONE response gives
no subquestions, otherwise the non-empty trimmed lines capped at four. -/
def parseSubquestions (response : String) : List String :=
  if trimStr response = "NONE" then []
  else (((splitLines response).map trimStr).filter (fun l => l.length > 0)).take 4

/-- generateAsyncSubquestions: one oracle call followed by the parse. -/
def generateAsyncSubquestions (env : Env) (content : String) (messages : List Msg) :
    Except String (List String) :=
  match env.subqRaw content messages with
  | .error e => .error e
  | .ok raw => .ok (parseSubquestions raw)

/-- The needs-more-info flag of the V3 summarizeWithAI: an upper-case
marker searched inside the lower-cased response. -/
def needsMoreFlagV3 (response : String) : Bool :=
  hasSubstr (lowerStr response) "NEEDS_MORE_INFO: yes"

/-- The needs-more-info flag of the V2 summarizeWithAI. -/
def needsMoreFlagV2 (response : String) : Bool :=
  hasSubstr (lowerStr response) "needs_more_info: yes"

/-- Sub-result collection: registry lookups with the or-else defaults of
the source. -/
def collectSubResults (tree : Tree) (ids : List Nat) : List SubResult :=
  ids.map (fun cid =>
    match treeLookup tree cid with
    | some s => ⟨cid, strOrNone s.result, s.status⟩
    | none => ⟨cid, none, .completed⟩)

/-! ## Run plumbing shared by both revisions -/

/-- The input record of the agent generator. -/
structure AgentInput where
  prompt : Option String := none
  messages : List Msg := []
  agentId : Option Nat := none
  parentId : Option Nat := none
  masterPrompt : Option String := none
deriving Repr, DecidableEq

/-- Outcome of one complete generator run: a normal return value, a
propagated exception, or fuel exhaustion of the embedding. -/
inductive Outcome
  | ret (s : String)
  | thrown (e : String)
  | fuelOut
deriving Repr, DecidableEq

/-- Result of the guarded body: normal return, an uncaught failure
carrying the state object at the point of failure, or fuel exhaustion. -/
inductive BRes
  | ok (r : String)
  | err (e : String) (st : AgentState)
  | out
deriving Repr, DecidableEq

/-- Result of a clarification or blocking-question step. -/
inductive StepRes
  | ok (st : AgentState)
  | fail (e : String) (st : AgentState)
deriving Repr, DecidableEq

/-- A recursive run of the agent function, abstracted for the fuel-indexed
tie. -/
abbrev ChildFn := AgentInput → Sys → Sys × List (Nat × Chunk) × Outcome

/-- Task creation and registration, identical in both revisions: allocate
an id when none is supplied, build the initial record with status
running, register it. -/
def initTask (input : AgentInput) (sys : Sys) : Sys × Nat × AgentState :=
  let (sys1, id) := match input.agentId with
    | some i => (sys, i)
    | none => ({ sys with nextId := sys.nextId + 1 }, sys.nextId)
  let st : AgentState :=
    { agentId := id,
      parentId := input.parentId,
      userContent := strOrEmpty input.prompt,
      userComment := "unchanged",
      status := .running,
      subagents := [],
      messages := input.messages,
      result := none,
      createdAt := 0 }
  ({ sys1 with tree := treeSet sys1.tree id st, regs := sys1.regs ++ [(id, st.messages)] },
   id, st)

/-- An external comment write, observed at checkpoint k. -/
def applyCommentWrite (env : Env) (k : Nat) (st : AgentState) : AgentState :=
  match env.commentAt k with
  | some c => { st with userComment := c }
  | none => st

/-- The text delta carried by a chunk. -/
def deltaOf : Chunk → String
  | .textDelta d => d
  | _ => ""

/-- Concatenation of the text deltas of a stream, the textResult
accumulator of runMainAgent. -/
def concatDeltas : List Chunk → String
  | [] => ""
  | c :: cs => deltaOf c ++ concatDeltas cs

/-- Detection of a browser tool result chunk, the phase-two trigger of the
V3 revision. -/
def isBrowserTool : Chunk → Bool
  | .toolResult name => strStartsWith name "browser_"
  | _ => false

/-- Result of the interleaving loop over the main execution stream. -/
inductive LoopRes
  | cont (sys : Sys) (st : AgentState) (pending : List (Nat × List Msg))
         (ys : List (Nat × Chunk)) (txt : String)
  | del (sys : Sys) (st : AgentState) (ys : List (Nat × Chunk)) (r : String)
  | fail (sys : Sys) (st : AgentState) (ys : List (Nat × Chunk)) (e : String)
deriving Repr, DecidableEq

/-- Result of draining the spawned child generators. -/
inductive DrainRes
  | done (sys : Sys) (ys : List (Nat × Chunk))
  | fail (sys : Sys) (ys : List (Nat × Chunk)) (e : String)
  | out (sys : Sys) (ys : List (Nat × Chunk))
deriving Repr, DecidableEq

/-- Allocate and record the child tasks of one fan-out: fresh id per
subquestion, appended to the subagents list of the parent, with the child
history built at spawn time from the current parent history plus the
subquestion. -/
def spawnSubagents (sys : Sys) (st : AgentState) : List String →
    Sys × AgentState × List (Nat × List Msg)
  | [] => (sys, st, [])
  | q :: qs =>
    let cid := sys.nextId
    let st1 := { st with subagents := st.subagents ++ [cid] }
    let sys1 := mutSt { sys with nextId := sys.nextId + 1 } st1
    let msgs := st1.messages ++ [⟨"user", q⟩]
    let (sys2, st2, rest) := spawnSubagents sys1 st1 qs
    (sys2, st2, (cid, msgs) :: rest)

/-! ## The V3 revision: the agent generator of the current ai.ts, the one
with browser tooling, imported by the backend entry point. -/

namespace V3

/-- Result of the master relevance gate, the only region outside the
try of the generator body. -/
inductive GateRes
  | proceed (sys : Sys)
  | stop (sys : Sys) (ys : List (Nat × Chunk)) (r : String)
  | thrown (sys : Sys) (e : String)

/-- The master-prompt relevance check: when both a master prompt and a
prompt are supplied, one oracle call decides relatedness; an UNRELATED
verdict finalizes the task as deleted and evicts it.  A failure here is
outside the try of the body and propagates. -/
def gate (env : Env) (input : AgentInput) (id : Nat) (st : AgentState) (sys : Sys) :
    GateRes :=
  match input.masterPrompt, input.prompt with
  | some mp, some p =>
    if mp = "" || p = "" then .proceed sys
    else
      match env.related mp p with
      | .error e => .thrown sys e
      | .ok resp =>
        if trimStr resp = "UNRELATED" then
          let st1 := { st with status := .deleted,
                               result := some "Agent deleted: prompt unrelated to master prompt" }
          .stop { sys with tree := treeRemove (treeMutate sys.tree id st1) id }
            [(id, Chunk.stateSnap (snapOf st1))]
            "Agent deleted: prompt unrelated to master prompt"
        else .proceed sys
  | _, _ => .proceed sys

/-- Step one of the V3 body.  The ambiguity oracle is consulted twice as
in the source; a truthy question suspends through the query channel and a
truthy answer replaces the content and extends the history, while an
absent or empty answer changes nothing; a falsy question on the second
call appends the prompt instead. -/
def clarStep (env : Env) (id : Nat) (input : AgentInput) (st : AgentState) (sys : Sys) :
    Sys × StepRes :=
  match input.prompt with
  | none => (sys, .ok st)
  | some p =>
    if p = "" then (sys, .ok st)
    else
      match env.needsClarV3 p with
      | .error e => (sys, .fail e st)
      | .ok first =>
        if optTruthy first then
          match env.needsClarV3 p with
          | .error e => (sys, .fail e st)
          | .ok uq =>
            if optTruthy uq then
              let q := strOrEmpty uq
              let (sys1, ans) := runQuery env sys id ("Please clarify: " ++ q)
              let st1 := reSt sys1 id st
              if optTruthy ans then
                let a := strOrEmpty ans
                let st2 := { st1 with userContent := a,
                                       messages := st1.messages ++ [⟨"user", a⟩] }
                (mutSt sys1 st2, .ok st2)
              else (sys1, .ok st1)
            else
              let st1 := { st with messages := st.messages ++ [⟨"user", p⟩] }
              (mutSt sys st1, .ok st1)
        else (sys, .ok st)

/-- Step two of the V3 body: the blocking-question loop, bounded by its
fuel counter, three in the source.  A falsy question breaks; a truthy
answer is folded into content and history; an absent answer folds in
nothing and the loop simply continues to its next iteration. -/
def blockingLoop (env : Env) (id : Nat) : Nat → AgentState → Sys → Sys × StepRes
  | 0, st, sys => (sys, .ok st)
  | n + 1, st, sys =>
    let sys := { sys with syncCalls := sys.syncCalls + 1 }
    match env.syncQ st.userContent st.messages with
    | .error e => (sys, .fail e st)
    | .ok none => (sys, .ok st)
    | .ok (some q) =>
      if q = "" then (sys, .ok st)
      else
        let (sys1, ans) := runQuery env sys id q
        let st1 := reSt sys1 id st
        if optTruthy ans then
          let a := strOrEmpty ans
          let st2 := { st1 with
            userContent := st1.userContent ++ "\n[User answered: " ++ a ++ "]",
            messages := st1.messages ++ [⟨"user", a⟩] }
          blockingLoop env id n st2 (mutSt sys1 st2)
        else blockingLoop env id n st1 sys1

/-- The interleaving loop over the main execution stream of the V3 body:
per chunk, the comment checkpoint (delete finalizes and evicts, modify
re-yields the snapshot and suppresses the chunk), then the chunk is
yielded; the first browser tool result triggers the one-time phase-two
fan-out, whose children are created now and drained later. -/
def mainLoop (env : Env) (id : Nat) :
    List Chunk → Nat → Bool → Bool → AgentState → Sys →
    List (Nat × List Msg) → List (Nat × Chunk) → String → LoopRes
  | [], _, _, _, st, sys, pending, ys, txt => .cont sys st pending ys txt
  | c :: cs, k, btools, spawned, st, sys, pending, ys, txt =>
    let st := applyCommentWrite env k st
    let sys := mutSt sys st
    if st.userComment = "delete" then
      let st1 := { st with status := .deleted, result := some "Agent deleted by user" }
      .del { sys with tree := treeRemove (treeMutate sys.tree id st1) id }
        st1 (ys ++ [(id, Chunk.stateSnap (snapOf st1))]) "Agent deleted by user"
    else if st.userComment = "modify" then
      mainLoop env id cs (k + 1) btools spawned st sys pending
        (ys ++ [(id, Chunk.stateSnap (snapOf st))]) (txt ++ deltaOf c)
    else
      let ys1 := ys ++ [(id, c)]
      let txt1 := txt ++ deltaOf c
      let btools1 := btools || isBrowserTool c
      if btools1 && !spawned then
        match env.subqRaw st.userContent st.messages with
        | .error e => .fail sys st ys1 e
        | .ok raw =>
          let subqs := parseSubquestions raw
          let (sys1, st1, newP) := spawnSubagents sys st subqs
          mainLoop env id cs (k + 1) btools1 true st1 sys1 (pending ++ newP) ys1 txt1
      else mainLoop env id cs (k + 1) btools1 spawned st sys pending ys1 txt1

/-- Drain the spawned child generators in creation order, forwarding
their chunks.  A child throwing propagates into the parent body; fuel
exhaustion of the embedding is passed through. -/
def drainChildren (pid : Nat) (child : ChildFn) :
    List (Nat × List Msg) → Sys → List (Nat × Chunk) → DrainRes
  | [], sys, ys => .done sys ys
  | (cid, msgs) :: rest, sys, ys =>
    match child { prompt := none, messages := msgs, agentId := some cid,
                  parentId := some pid, masterPrompt := none } sys with
    | (sys1, cys, .ret _) => drainChildren pid child rest sys1 (ys ++ cys)
    | (sys1, cys, .thrown e) => .fail sys1 (ys ++ cys) e
    | (sys1, cys, .fuelOut) => .out sys1 (ys ++ cys)

/-- The screenshot capture followed by finalization: result set to the
summary, status completed, final snapshot yielded, entry evicted, summary
returned. -/
def completeWith (env : Env) (sys : Sys) (ys : List (Nat × Chunk))
    (st : AgentState) (summary : String) : Sys × List (Nat × Chunk) × BRes :=
  match env.finalShot with
  | .error e => (sys, ys, .err e st)
  | .ok _ =>
    let st1 := { st with result := some summary, status := .completed }
    let sys1 := { sys with tree := treeRemove (treeMutate sys.tree st.agentId st1) st.agentId }
    (sys1, ys ++ [(st.agentId, Chunk.stateSnap (snapOf st1))],
     .ok (strOrEmpty st1.result))

/-- Steps six onward of the V3 body: collect the child results from the
registry, summarize, optionally ask one more blocking question and re-run
the main execution with the answer, then finalize. -/
def finish (env : Env) (id : Nat) (subIds : List Nat) (st : AgentState) (sys : Sys) :
    Sys × List (Nat × Chunk) × BRes :=
  let subResults := collectSubResults sys.tree subIds
  let mainAnswer := strOrEmpty st.result
  match env.summarizeRaw mainAnswer subResults with
  | .error e => (sys, [], .err e st)
  | .ok summary =>
    if needsMoreFlagV3 summary then
      let sys := { sys with syncCalls := sys.syncCalls + 1 }
      match env.syncQ summary st.messages with
      | .error e => (sys, [], .err e st)
      | .ok fq =>
        if optTruthy fq then
          let q := strOrEmpty fq
          let (sys1, ans) := runQuery env sys id q
          let st1 := reSt sys1 id st
          if optTruthy ans then
            let a := strOrEmpty ans
            let st2 := { st1 with
              userContent := st1.userContent ++ "\n[Final user input: " ++ a ++ "]",
              messages := st1.messages ++ [⟨"user", a⟩] }
            let sys2 := mutSt sys1 st2
            match env.mainChunks st2.messages with
            | .error e => (sys2, [], .err e st2)
            | .ok cs2 =>
              let ys2 := cs2.map (fun c => (id, c))
              let txt2 := concatDeltas cs2
              let st3 := if optTruthy st2.result then st2
                else { st2 with result := some txt2 }
              let sys3 := mutSt sys2 st3
              completeWith env sys3 ys2 st3 summary
          else completeWith env sys1 [] st1 summary
        else completeWith env sys [] st summary
    else completeWith env sys [] st summary

/-- The guarded body of the V3 generator: initial snapshot, clarification,
comment checkpoint, blocking questions, the unused subquestion generation
of step three, another checkpoint, the prompt push, the main execution
with its interleaving loop, the child drain, and the finishing steps. -/
def body (child : ChildFn) (env : Env) (id : Nat) (input : AgentInput)
    (st0 : AgentState) (sys0 : Sys) : Sys × List (Nat × Chunk) × BRes :=
  let ys0 : List (Nat × Chunk) := [(id, Chunk.stateSnap (snapOf st0))]
  match clarStep env id input st0 sys0 with
  | (sys1, .fail e st1) => (sys1, ys0, .err e st1)
  | (sys1, .ok st1) =>
    let st1 := applyCommentWrite env 0 st1
    let sys1 := mutSt sys1 st1
    if st1.userComment = "delete" then
      let stD := { st1 with status := .deleted, result := some "Agent deleted by user" }
      ({ sys1 with tree := treeRemove (treeMutate sys1.tree id stD) id },
       ys0 ++ [(id, Chunk.stateSnap (snapOf stD))], .ok "Agent deleted by user")
    else
      match blockingLoop env id 3 st1 sys1 with
      | (sys2, .fail e st2) => (sys2, ys0, .err e st2)
      | (sys2, .ok st2) =>
        match generateAsyncSubquestions env st2.userContent st2.messages with
        | .error e => (sys2, ys0, .err e st2)
        | .ok _ =>
          let st2 := applyCommentWrite env 1 st2
          let sys2 := mutSt sys2 st2
          if st2.userComment = "delete" then
            let stD := { st2 with status := .deleted, result := some "Agent deleted by user" }
            ({ sys2 with tree := treeRemove (treeMutate sys2.tree id stD) id },
             ys0 ++ [(id, Chunk.stateSnap (snapOf stD))], .ok "Agent deleted by user")
          else
            let st3 := match input.prompt with
              | some p => if p = "" then st2
                else { st2 with messages := st2.messages ++ [⟨"user", p⟩] }
              | none => st2
            let sys3 := mutSt sys2 st3
            match env.mainChunks st3.messages with
            | .error e => (sys3, ys0, .err e st3)
            | .ok cs =>
              match mainLoop env id cs 2 false false st3 sys3 [] [] "" with
              | .del sysD _ ysL r => (sysD, ys0 ++ ysL, .ok r)
              | .fail sysF stF ysL e => (sysF, ys0 ++ ysL, .err e stF)
              | .cont sys4 st4 pending ysL txt =>
                let st5 := if optTruthy st4.result then st4
                  else { st4 with result := some txt }
                let sys5 := mutSt sys4 st5
                match drainChildren id child pending sys5 [] with
                | .fail sysE ysC e => (sysE, ys0 ++ ysL ++ ysC, .err e (reSt sysE id st5))
                | .out sysO ysC => (sysO, ys0 ++ ysL ++ ysC, .out)
                | .done sys6 ysC =>
                  match finish env id (pending.map (fun pc => pc.1)) st5 sys6 with
                  | (sys7, ys3, res) => (sys7, ys0 ++ ysL ++ ysC ++ ys3, res)

/-- The complete fuel-indexed V3 agent run: registration, the relevance
gate, the guarded body, and the catch that finalizes an uncaught failure
as an error status, yields the final snapshot, evicts the entry and
returns normally. -/
def agentRun : Nat → Env → AgentInput → Sys → Sys × List (Nat × Chunk) × Outcome
  | 0, _, _, sys => (sys, [], .fuelOut)
  | fuel + 1, env, input, sys =>
    let (sys1, id, st0) := initTask input sys
    match gate env input id st0 sys1 with
    | .thrown sysT e => (sysT, [], .thrown e)
    | .stop sysS ys r => (sysS, ys, .ret r)
    | .proceed sys2 =>
      match body (agentRun fuel env) env id input st0 sys2 with
      | (sys3, ys, .ok r) => (sys3, ys, .ret r)
      | (sys3, ys, .out) => (sys3, ys, .fuelOut)
      | (sys3, ys, .err e stE) =>
        let stE1 := { stE with status := .error, result := some e }
        let sysC := { sys3 with tree := treeRemove (treeMutate sys3.tree id stE1) id }
        (sysC, ys ++ [(id, Chunk.stateSnap (snapOf stE1))],
         .ret (strOrEmpty stE1.result))

end V3

/-! ## The V2 revision: the earlier ai.ts in the source pack, the one
without browser tooling.  It differs from V3 in the clarification and
blocking-question steps, both of which finalize the task as completed
when the user gives an absent answer, and in spawning the fan-out
children from the step-three subquestions before the main execution. -/

namespace V2

/-- Result of the V2 blocking-question loop: besides continue and fail it
has the early-completion exit taken on an absent answer, which sets the
terminal status without evicting the entry. -/
inductive BlockRes
  | ok (st : AgentState)
  | halted (st : AgentState) (r : String)
  | fail (e : String) (st : AgentState)
deriving Repr, DecidableEq

/-- The V2 blocking-question loop.  A falsy question breaks; a truthy
answer is folded in; an absent answer finalizes the task as completed
with a fixed result text — the entry is mutated but not removed from the
registry on this path. -/
def blockingLoop (env : Env) (id : Nat) : Nat → AgentState → Sys → Sys × BlockRes
  | 0, st, sys => (sys, .ok st)
  | n + 1, st, sys =>
    let sys := { sys with syncCalls := sys.syncCalls + 1 }
    match env.syncQ st.userContent st.messages with
    | .error e => (sys, .fail e st)
    | .ok none => (sys, .ok st)
    | .ok (some q) =>
      if q = "" then (sys, .ok st)
      else
        let (sys1, ans) := runQuery env sys id q
        let st1 := reSt sys1 id st
        if optTruthy ans then
          let a := strOrEmpty ans
          let st2 := { st1 with
            userContent := st1.userContent ++ "\n[User answered: " ++ a ++ "]",
            messages := st1.messages ++ [⟨"user", a⟩] }
          blockingLoop env id n st2 (mutSt sys1 st2)
        else
          let stC := { st1 with status := .completed,
                                result := some "User did not answer required question" }
          (mutSt sys1 stC, .halted stC "User did not answer required question")

/-- The step-four spawn of V2: fresh id per subquestion, recorded in the
subagents list; the child is later started from the subquestion as its
prompt. -/
def spawnP (sys : Sys) (st : AgentState) : List String →
    Sys × AgentState × List (Nat × String)
  | [] => (sys, st, [])
  | q :: qs =>
    let cid := sys.nextId
    let st1 := { st with subagents := st.subagents ++ [cid] }
    let sys1 := mutSt { sys with nextId := sys.nextId + 1 } st1
    let (sys2, st2, rest) := spawnP sys1 st1 qs
    (sys2, st2, (cid, q) :: rest)

/-- The V2 interleaving loop over the main execution stream: the delete
and modify checkpoints per chunk, without the browser phase-two logic. -/
def mainLoop (env : Env) (id : Nat) :
    List Chunk → Nat → AgentState → Sys → List (Nat × Chunk) → String → LoopRes
  | [], _, st, sys, ys, txt => .cont sys st [] ys txt
  | c :: cs, k, st, sys, ys, txt =>
    let st := applyCommentWrite env k st
    let sys := mutSt sys st
    if st.userComment = "delete" then
      let st1 := { st with status := .deleted, result := some "Agent deleted by user" }
      .del { sys with tree := treeRemove (treeMutate sys.tree id st1) id }
        st1 (ys ++ [(id, Chunk.stateSnap (snapOf st1))]) "Agent deleted by user"
    else if st.userComment = "modify" then
      mainLoop env id cs (k + 1) st sys
        (ys ++ [(id, Chunk.stateSnap (snapOf st))]) (txt ++ deltaOf c)
    else
      mainLoop env id cs (k + 1) st sys (ys ++ [(id, c)]) (txt ++ deltaOf c)

/-- Drain the V2 children: each child is the same generator run on the
subquestion as its prompt. -/
def drainChildren (pid : Nat) (child : ChildFn) :
    List (Nat × String) → Sys → List (Nat × Chunk) → DrainRes
  | [], sys, ys => .done sys ys
  | (cid, q) :: rest, sys, ys =>
    match child { prompt := some q, agentId := some cid, parentId := some pid } sys with
    | (sys1, cys, .ret _) => drainChildren pid child rest sys1 (ys ++ cys)
    | (sys1, cys, .thrown e) => .fail sys1 (ys ++ cys) e
    | (sys1, cys, .fuelOut) => .out sys1 (ys ++ cys)

/-- V2 finalization: result set to the summary, status completed, final
snapshot yielded, entry evicted, summary returned. -/
def completeWith (sys : Sys) (ys : List (Nat × Chunk)) (st : AgentState)
    (summary : String) : Sys × List (Nat × Chunk) × BRes :=
  let st1 := { st with result := some summary, status := .completed }
  let sys1 := { sys with tree := treeRemove (treeMutate sys.tree st.agentId st1) st.agentId }
  (sys1, ys ++ [(st.agentId, Chunk.stateSnap (snapOf st1))],
   .ok (strOrEmpty st1.result))

/-- Steps six onward of the V2 body: collect, summarize with the V2 flag,
optionally one more blocking question with a re-run, then finalize. -/
def finish (env : Env) (id : Nat) (subIds : List Nat) (st : AgentState) (sys : Sys) :
    Sys × List (Nat × Chunk) × BRes :=
  let subResults := collectSubResults sys.tree subIds
  let mainAnswer := strOrEmpty st.result
  match env.summarizeRaw mainAnswer subResults with
  | .error e => (sys, [], .err e st)
  | .ok summary =>
    if needsMoreFlagV2 summary then
      let sys := { sys with syncCalls := sys.syncCalls + 1 }
      match env.syncQ summary st.messages with
      | .error e => (sys, [], .err e st)
      | .ok fq =>
        if optTruthy fq then
          let q := strOrEmpty fq
          let (sys1, ans) := runQuery env sys id q
          let st1 := reSt sys1 id st
          if optTruthy ans then
            let a := strOrEmpty ans
            let st2 := { st1 with
              userContent := st1.userContent ++ "\n[Final user input: " ++ a ++ "]",
              messages := st1.messages ++ [⟨"user", a⟩] }
            let sys2 := mutSt sys1 st2
            match env.mainChunks st2.messages with
            | .error e => (sys2, [], .err e st2)
            | .ok cs2 =>
              let ys2 := cs2.map (fun c => (id, c))
              let txt2 := concatDeltas cs2
              let st3 := if optTruthy st2.result then st2
                else { st2 with result := some txt2 }
              let sys3 := mutSt sys2 st3
              completeWith sys3 ys2 st3 summary
          else completeWith sys1 [] st1 summary
        else completeWith sys [] st summary
    else completeWith sys [] st summary

/-- The guarded body of the V2 generator: initial snapshot, the heuristic
clarification step whose absent answer finalizes the task as completed
without evicting it, the blocking-question loop with the same
early-completion behaviour, the subquestion fan-out spawned before the
main execution, the interleaving loop, the child drain, and the finishing
steps. -/
def body (child : ChildFn) (env : Env) (id : Nat) (input : AgentInput)
    (st0 : AgentState) (sys0 : Sys) : Sys × List (Nat × Chunk) × BRes :=
  let ys0 : List (Nat × Chunk) := [(id, Chunk.stateSnap (snapOf st0))]
  let step1 : Sys × List (Nat × Chunk) × StepRes ⊕ Sys × List (Nat × Chunk) × String :=
    match input.prompt with
    | some p =>
      if p = "" then .inl (sys0, [], .ok st0)
      else if decideNeedsClarification p then
        let (sys1, ans) := runQuery env sys0 id ("Please clarify: " ++ p)
        let st1 := reSt sys1 id st0
        if optTruthy ans then
          let a := strOrEmpty ans
          let st2 := { st1 with userContent := a,
                                 messages := st1.messages ++ [⟨"user", a⟩] }
          .inl (mutSt sys1 st2, [], .ok st2)
        else
          let stC := { st1 with status := .completed,
                                result := some "User did not provide clarification" }
          .inr (mutSt sys1 stC, [(id, Chunk.stateSnap (snapOf stC))],
                "User did not provide clarification")
      else
        let st1 := { st0 with messages := st0.messages ++ [⟨"user", p⟩] }
        .inl (mutSt sys0 st1, [], .ok st1)
    | none => .inl (sys0, [], .ok st0)
  match step1 with
  | .inr (sysC, ysC, r) => (sysC, ys0 ++ ysC, .ok r)
  | .inl (sys1, ys1, .fail e st1) => (sys1, ys0 ++ ys1, .err e st1)
  | .inl (sys1, ys1, .ok st1) =>
    match blockingLoop env id 3 st1 sys1 with
    | (sys2, .fail e st2) => (sys2, ys0 ++ ys1, .err e st2)
    | (sys2, .halted st2 r) =>
      (sys2, ys0 ++ ys1 ++ [(id, Chunk.stateSnap (snapOf st2))], .ok r)
    | (sys2, .ok st2) =>
      match generateAsyncSubquestions env st2.userContent st2.messages with
      | .error e => (sys2, ys0 ++ ys1, .err e st2)
      | .ok subqs =>
        let (sys3, st3, pending) := spawnP sys2 st2 subqs
        match env.mainChunks st3.messages with
        | .error e => (sys3, ys0 ++ ys1, .err e st3)
        | .ok cs =>
          match mainLoop env id cs 0 st3 sys3 [] "" with
          | .del sysD _ ysL r => (sysD, ys0 ++ ys1 ++ ysL, .ok r)
          | .fail sysF stF ysL e => (sysF, ys0 ++ ys1 ++ ysL, .err e stF)
          | .cont sys4 st4 _ ysL txt =>
            let st5 := if optTruthy st4.result then st4
              else { st4 with result := some txt }
            let sys5 := mutSt sys4 st5
            match drainChildren id child pending sys5 [] with
            | .fail sysE ysC e => (sysE, ys0 ++ ys1 ++ ysL ++ ysC, .err e (reSt sysE id st5))
            | .out sysO ysC => (sysO, ys0 ++ ys1 ++ ysL ++ ysC, .out)
            | .done sys6 ysC =>
              match finish env id (pending.map (fun pc => pc.1)) st5 sys6 with
              | (sys7, ys3, res) => (sys7, ys0 ++ ys1 ++ ysL ++ ysC ++ ys3, res)

/-- The complete fuel-indexed V2 agent run: registration, the guarded
body, and the catch that finalizes an uncaught failure as an error
status, yields the final snapshot, evicts the entry and returns
normally. -/
def agentRun : Nat → Env → AgentInput → Sys → Sys × List (Nat × Chunk) × Outcome
  | 0, _, _, sys => (sys, [], .fuelOut)
  | fuel + 1, env, input, sys =>
    let (sys1, id, st0) := initTask input sys
    match body (agentRun fuel env) env id input st0 sys1 with
    | (sys3, ys, .ok r) => (sys3, ys, .ret r)
    | (sys3, ys, .out) => (sys3, ys, .fuelOut)
    | (sys3, ys, .err e stE) =>
      let stE1 := { stE with status := .error, result := some e }
      let sysC := { sys3 with tree := treeRemove (treeMutate sys3.tree id stE1) id }
      (sysC, ys ++ [(id, Chunk.stateSnap (snapOf stE1))],
       .ret (strOrEmpty stE1.result))

end V2

/-! ## The sandbox tool scope: fork and wait

In runMainAgent the fork map and the handle counter are declared once per
tool scope, outside executePython, so they persist across the successive
script executions of one task.  A script execution is abstracted to the
sequence of fork and wait calls it performs against that scope. -/

/-- The per-task fork state of runMainAgent: the map from handle to the
memoized result of the spawned run, and the next handle, starting at
one. -/
structure ForkScope where
  forks : List (Nat × String)
  nextHandle : Nat
deriving Repr, DecidableEq

/-- The scope as initialized at the top of runMainAgent. -/
def initialScope : ForkScope := ⟨[], 1⟩

/-- Lookup in the fork map. -/
def lookupFork : List (Nat × String) → Nat → Option String
  | [], _ => none
  | (i, r) :: rest, j => if i = j then some r else lookupFork rest j

/-- The result delivered by a fork promise: the loop keeps the last chunk
of the child stream that is a bare string, starting from the empty
string.  The streams never yield a bare string, so the generator return
value is not captured here. -/
def lastRawChunk : List (Nat × Chunk) → String → String
  | [], acc => acc
  | (_, c) :: rest, acc =>
    match c with
    | .raw s => lastRawChunk rest s
    | _ => lastRawChunk rest acc

/-- fork of runMainAgent: allocate the next handle, spawn one child agent
run whose history is the current history of the parent plus a user
message carrying the prompt, record the result its consuming loop
delivers, and return the handle. -/
def fork (fuel : Nat) (env : Env) (st : AgentState) (scope : ForkScope)
    (sys : Sys) (prompt : String) : ForkScope × Sys × Nat :=
  let handle := scope.nextHandle
  let forkedMessages := st.messages ++ [⟨"user", prompt⟩]
  let (sys1, cys, _) :=
    V3.agentRun fuel env { messages := forkedMessages, parentId := some st.agentId } sys
  let res := lastRawChunk cys ""
  (⟨scope.forks ++ [(handle, res)], scope.nextHandle + 1⟩, sys1, handle)

/-- wait of runMainAgent: an unknown handle raises; a known handle yields
the memoized result, and the map entry is not removed. -/
def wait (scope : ForkScope) (handle : Nat) : Except String String :=
  match lookupFork scope.forks handle with
  | none => .error ("No fork with handle " ++ natToStr handle)
  | some r => .ok r

/-- One sandbox call against the tool scope. -/
inductive SbOp
  | fork (prompt : String)
  | wait (handle : Nat)
deriving Repr, DecidableEq

/-- The value returned to the script by one sandbox call. -/
inductive SbVal
  | handle (n : Nat)
  | text (s : String)
deriving Repr, DecidableEq

/-- Run the fork and wait calls of a script execution against the tool
scope, collecting each returned value or raised error in order. -/
def runSandboxOps (fuel : Nat) (env : Env) (st : AgentState) :
    List SbOp → ForkScope → Sys → ForkScope × Sys × List (Except String SbVal)
  | [], scope, sys => (scope, sys, [])
  | .fork p :: ops, scope, sys =>
    let (scope1, sys1, h) := fork fuel env st scope sys p
    let (scope2, sys2, outs) := runSandboxOps fuel env st ops scope1 sys1
    (scope2, sys2, .ok (SbVal.handle h) :: outs)
  | .wait h :: ops, scope, sys =>
    let r := wait scope h
    let (scope2, sys2, outs) := runSandboxOps fuel env st ops scope sys
    (scope2, sys2, r.map SbVal.text :: outs)

/-- Number of fork calls in a script. -/
def forkCount : List SbOp → Nat
  | [] => 0
  | .fork _ :: ops => forkCount ops + 1
  | .wait _ :: ops => forkCount ops

/-- The handles among the returned values, in order. -/
def handleOutputs : List (Except String SbVal) → List Nat
  | [] => []
  | .ok (SbVal.handle h) :: rest => h :: handleOutputs rest
  | _ :: rest => handleOutputs rest

/-- Consecutive naturals of a given length from a given start. -/
def handleSeq : Nat → Nat → List Nat
  | _, 0 => []
  | s, n + 1 => s :: handleSeq (s + 1) n

/-! ## Concrete fixtures for the evaluated scenarios -/

/-- A benign stub environment: the handler answers every query with an
absent answer, no intervention, the goal is never judged ambiguous, no
blocking question is asked, no subquestions are generated, the main
execution streams nothing, and summarization echoes the main answer. -/
def stubEnv : Env :=
  { handler := some (fun _ _ => none),
    interv := none,
    needsClarV3 := fun _ => .ok none,
    syncQ := fun _ _ => .ok none,
    subqRaw := fun _ _ => .ok "NONE",
    summarizeRaw := fun a _ => .ok a,
    related := fun _ _ => .ok "RELATED",
    mainChunks := fun _ => .ok [],
    commentAt := fun _ => none,
    finalShot := .ok () }

/-- The empty orchestrator state. -/
def sys0 : Sys := ⟨[], 0, [], [], 0⟩

/-- A registered parent task used by the sandbox scenarios. -/
def parentSt : AgentState :=
  { agentId := 0, parentId := none, userContent := "", userComment := "unchanged",
    status := .running, subagents := [], messages := [⟨"user", "ctx"⟩],
    result := none, createdAt := 0 }

/-- The orchestrator state holding the registered parent. -/
def sysP : Sys := ⟨[(0, parentSt)], 1, [], [], 0⟩

/-- Environment of the fork scenario: the child streams one text delta
and summarization produces a fixed non-empty result. -/
def envC2 : Env :=
  { stubEnv with
    mainChunks := fun _ => .ok [Chunk.textDelta "hi"],
    summarizeRaw := fun _ _ => .ok "S" }

/-- The child input built by fork in the fork scenario. -/
def childInputC2 : AgentInput :=
  { messages := parentSt.messages ++ [⟨"user", "X"⟩], parentId := some 0 }

/-- Environment of the blocking-question scenario: the oracle always has
the same blocking question. -/
def envC5 : Env :=
  { stubEnv with syncQ := fun _ _ => .ok (some "Q?") }

/-- Environment of the failure scenario: the blocking-question oracle
call fails. -/
def envC8 : Env :=
  { stubEnv with syncQ := fun _ _ => .error "oracle transport failure" }

/-- The root state as registered for a given prompt from the empty
orchestrator state. -/
def stRoot (p : String) : AgentState :=
  { agentId := 0, parentId := none, userContent := p, userComment := "unchanged",
    status := .running, subagents := [], messages := [], result := none, createdAt := 0 }

/-- The last state snapshot emitted for a given task id in a yield
stream. -/
def lastSnapFor (ys : List (Nat × Chunk)) (id : Nat) : Option Snap :=
  match ys with
  | [] => none
  | (i, c) :: rest =>
    match lastSnapFor rest id with
    | some s => some s
    | none =>
      match c with
      | .stateSnap s => if i = id then some s else none
      | _ => none

/-- Environment of the confirmed clarification scenario: the goal is
judged ambiguous, every query is answered absently, and summarization is
constant. -/
def envC4 : Env :=
  { stubEnv with
    needsClarV3 := fun _ => .ok (some "Which kind?"),
    summarizeRaw := fun _ _ => .ok "done" }

/-- A one-task orchestrator state for the witness of the
blocking-question theorem. -/
def sysW : Sys := ⟨[(0, stRoot "go")], 1, [], [], 0⟩

/-! ## Registry lemmas -/

theorem treeLookup_treeSet_self (t : Tree) (i : Nat) (v : AgentState) :
    treeLookup (treeSet t i v) i = some v := by
  induction t with
  | nil => simp [treeSet, treeLookup]
  | cons p rest ih =>
    by_cases h : p.1 = i
    · simp [treeSet, treeLookup, h]
    · simp [treeSet, treeLookup, h, ih]

theorem treeLookup_treeMutate_self {t : Tree} {i : Nat} {w : AgentState}
    (hreg : treeLookup t i = some w) (v : AgentState) :
    treeLookup (treeMutate t i v) i = some v := by
  induction t with
  | nil => simp [treeLookup] at hreg
  | cons p rest ih =>
    by_cases h : p.1 = i
    · simp [treeMutate, treeLookup, h]
    · simp [treeLookup, h] at hreg
      simp [treeMutate, treeLookup, h, ih hreg]

theorem treeMutate_self {t : Tree} {i : Nat} {v : AgentState}
    (hreg : treeLookup t i = some v) : treeMutate t i v = t := by
  induction t with
  | nil => simp [treeMutate]
  | cons p rest ih =>
    by_cases h : p.1 = i
    · simp [treeLookup, h] at hreg
      cases p with
      | mk a b =>
        simp at h
        subst h
        simp at hreg
        simp [treeMutate, hreg]
    · simp [treeLookup, h] at hreg
      simp [treeMutate, h, ih hreg]

theorem treeMutate_treeMutate (t : Tree) (i : Nat) (a b : AgentState) :
    treeMutate (treeMutate t i a) i b = treeMutate t i b := by
  induction t with
  | nil => simp [treeMutate]
  | cons p rest ih =>
    by_cases h : p.1 = i
    · simp [treeMutate, h]
    · simp [treeMutate, h, ih]

theorem treeLookup_treeRemove_self (t : Tree) (i : Nat) :
    treeLookup (treeRemove t i) i = none := by
  induction t with
  | nil => simp [treeRemove, treeLookup]
  | cons p rest ih =>
    by_cases h : p.1 = i
    · simpa [treeRemove, h] using ih
    · simpa [treeRemove, treeLookup, h] using ih

theorem agentState_status_eta {st : AgentState} (h : st.status = .running) :
    ({ st with status := .running } : AgentState) = st := by
  cases st
  simp_all

/-! ## Behaviour lemmas -/

theorem runQuery_absent {env : Env} {sys : Sys} {id : Nat} {st : AgentState}
    (hh : env.handler = some (fun _ _ => none)) (hiv : env.interv = none)
    (hreg : treeLookup sys.tree id = some st) (hst : st.status = .running)
    (prompt : String) :
    runQuery env sys id prompt
      = ({ sys with queries := sys.queries ++ [(id, prompt)] }, none) := by
  have hA : treeLookup (treeMutate sys.tree id { st with status := .awaitingUser }) id
      = some { st with status := .awaitingUser } := treeLookup_treeMutate_self hreg _
  have hB : treeMutate (treeMutate sys.tree id { st with status := .awaitingUser }) id
      { st with status := .running } = sys.tree := by
    rw [treeMutate_treeMutate, agentState_status_eta hst, treeMutate_self hreg]
  simp only [runQuery, queryUser, hh, hiv, hreg, hA]
  simp [hB]

theorem clarStep_absent {env : Env} {p q : String} {sys : Sys} {id : Nat} {st : AgentState}
    (hh : env.handler = some (fun _ _ => none)) (hiv : env.interv = none)
    (hclar : env.needsClarV3 p = .ok (some q)) (hp : p ≠ "") (hq : q ≠ "")
    (hreg : treeLookup sys.tree id = some st) (hst : st.status = .running)
    (ms : List Msg) :
    V3.clarStep env id { prompt := some p, messages := ms } st sys
      = ({ sys with queries := sys.queries ++ [(id, "Please clarify: " ++ q)] },
         .ok st) := by
  simp only [V3.clarStep, hclar, hp, if_neg hp, optTruthy, hq, strOrEmpty]
  rw [runQuery_absent hh hiv hreg hst]
  simp [reSt, hreg, optTruthy, hq]

theorem blockingLoop_absent {env : Env}
    (hh : env.handler = some (fun _ _ => none)) (hiv : env.interv = none)
    (hq : ∀ c m, ∃ r, env.syncQ c m = .ok r) :
    ∀ (n : Nat) {sys : Sys} {id : Nat} {st : AgentState},
    treeLookup sys.tree id = some st → st.status = .running →
    ∃ sys2, V3.blockingLoop env id n st sys = (sys2, .ok st)
      ∧ sys2.tree = sys.tree ∧ sys2.nextId = sys.nextId
      ∧ sys2.syncCalls ≤ sys.syncCalls + n ∧ sys2.regs = sys.regs := by
  intro n
  induction n with
  | zero =>
    intro sys id st hreg hst
    exact ⟨sys, rfl, rfl, rfl, Nat.le_refl _, rfl⟩
  | succ n ih =>
    intro sys id st hreg hst
    obtain ⟨r, hr⟩ := hq st.userContent st.messages
    match r with
    | none =>
      refine ⟨{ sys with syncCalls := sys.syncCalls + 1 }, ?_, rfl, rfl, by simp, rfl⟩
      simp [V3.blockingLoop, hr]
    | some q =>
      by_cases hq0 : q = ""
      · refine ⟨{ sys with syncCalls := sys.syncCalls + 1 }, ?_, rfl, rfl, by simp, rfl⟩
        simp [V3.blockingLoop, hr, hq0]
      · have hregA : treeLookup ({ sys with syncCalls := sys.syncCalls + 1 } : Sys).tree id
            = some st := hreg
        have hrq := runQuery_absent hh hiv hregA hst q
        obtain ⟨sys2, heq, htree, hnext, hcalls, hregs⟩ :=
          @ih { sys with
                syncCalls := sys.syncCalls + 1,
                queries := sys.queries ++ [(id, q)] } id st hreg hst
        refine ⟨sys2, ?_, htree, hnext, by simp at hcalls; omega, hregs⟩
        simp only [V3.blockingLoop, hr, if_neg hq0]
        rw [hrq]
        simp [reSt, hreg, optTruthy]
        exact heq

theorem blockingLoop_syncCalls_le (env : Env) (id : Nat) :
    ∀ (n : Nat) (st : AgentState) (sys : Sys),
    (V3.blockingLoop env id n st sys).1.syncCalls ≤ sys.syncCalls + n := by
  intro n
  induction n with
  | zero => intro st sys; simp [V3.blockingLoop]
  | succ n ih =>
    intro st sys
    rcases hcall : env.syncQ st.userContent st.messages with e | q?
    · simp [V3.blockingLoop, hcall]
    · match q? with
      | none => simp [V3.blockingLoop, hcall]
      | some q =>
        by_cases hq0 : q = ""
        · simp [V3.blockingLoop, hcall, hq0]
        · simp only [V3.blockingLoop, hcall, if_neg hq0]
          rcases hq2 : runQuery env { sys with syncCalls := sys.syncCalls + 1 } id q
            with ⟨sys1, ans⟩
          have hc1 : sys1.syncCalls = sys.syncCalls + 1 := by
            have h0 : (runQuery env { sys with syncCalls := sys.syncCalls + 1 } id q).1.syncCalls
                = sys.syncCalls + 1 := rfl
            rw [hq2] at h0
            exact h0
          dsimp only
          by_cases ha : optTruthy ans = true
          · simp only [ha, if_true]
            refine le_trans (ih _ _) ?_
            simp only [mutSt]
            omega
          · simp only [Bool.not_eq_true] at ha
            simp only [ha, Bool.false_eq_true, if_false]
            refine le_trans (ih _ _) ?_
            omega

theorem spawnSubagents_length :
    ∀ (qs : List String) (sys : Sys) (st : AgentState),
    (spawnSubagents sys st qs).2.2.length = qs.length := by
  intro qs
  induction qs with
  | nil => intro sys st; rfl
  | cons q qs ih => intro sys st; simp [spawnSubagents, ih]

theorem parseSubquestions_length_le (raw : String) :
    (parseSubquestions raw).length ≤ 4 := by
  unfold parseSubquestions
  split
  · simp
  · simp [List.length_take]

theorem lastSnapFor_append_snap (ys : List (Nat × Chunk)) (id : Nat) (s : Snap) :
    lastSnapFor (ys ++ [(id, Chunk.stateSnap s)]) id = some s := by
  induction ys with
  | nil => simp [lastSnapFor]
  | cons p rest ih =>
    cases p
    simp [lastSnapFor, ih]

theorem lookupFork_append_single (l : List (Nat × String)) (n : Nat) (r : String)
    (h : Nat) :
    lookupFork (l ++ [(n, r)]) h
      = match lookupFork l h with
        | some x => some x
        | none => if n = h then some r else none := by
  induction l with
  | nil => simp [lookupFork]
  | cons p rest ih =>
    by_cases hp : p.1 = h
    · simp [lookupFork, hp]
    · simp [lookupFork, hp, ih]

theorem wait_isOk (sc : ForkScope) (h : Nat) :
    (wait sc h).isOk = (lookupFork sc.forks h).isSome := by
  unfold wait
  cases lookupFork sc.forks h <;> rfl

theorem runSandboxOps_scope (fuel : Nat) (env : Env) (st : AgentState) :
    ∀ (ops : List SbOp) (sc : ForkScope) (sys : Sys),
    1 ≤ sc.nextHandle →
    (∀ h, (lookupFork sc.forks h).isSome = true ↔ (1 ≤ h ∧ h < sc.nextHandle)) →
    handleOutputs (runSandboxOps fuel env st ops sc sys).2.2
        = handleSeq sc.nextHandle (forkCount ops)
    ∧ (runSandboxOps fuel env st ops sc sys).1.nextHandle = sc.nextHandle + forkCount ops
    ∧ ∀ h, (lookupFork (runSandboxOps fuel env st ops sc sys).1.forks h).isSome = true
        ↔ (1 ≤ h ∧ h < sc.nextHandle + forkCount ops) := by
  intro ops
  induction ops with
  | nil =>
    intro sc sys h1 hinv
    exact ⟨rfl, by simp [runSandboxOps, forkCount], by
      simpa [runSandboxOps, forkCount] using hinv⟩
  | cons op ops ih =>
    intro sc sys h1 hinv
    match op with
    | .wait h =>
      obtain ⟨ho, hn, hiv2⟩ := ih sc sys h1 hinv
      simp only [runSandboxOps]
      refine ⟨?_, ?_, ?_⟩
      · rcases hw : wait sc h with e | r <;>
          simpa [hw, handleOutputs, forkCount] using ho
      · simpa [forkCount] using hn
      · simpa [forkCount] using hiv2
    | .fork p =>
      simp only [runSandboxOps, fork]
      rcases hrun : V3.agentRun fuel env
          { messages := st.messages ++ [⟨"user", p⟩], parentId := some st.agentId } sys
        with ⟨sysC, cys, out⟩
      have h1A : 1 ≤ sc.nextHandle + 1 := by omega
      have hinvA : ∀ h2,
          (lookupFork (sc.forks ++ [(sc.nextHandle, lastRawChunk cys "")]) h2).isSome = true
          ↔ (1 ≤ h2 ∧ h2 < sc.nextHandle + 1) := by
        intro h2
        rw [lookupFork_append_single]
        rcases hlk : lookupFork sc.forks h2 with _ | x
        · have hold := hinv h2
          rw [hlk] at hold
          simp only [Option.isSome_none, Bool.false_eq_true, false_iff] at hold
          by_cases he : sc.nextHandle = h2
          · subst he
            simp
            omega
          · simp [he]
            omega
        · have hold := hinv h2
          rw [hlk] at hold
          simp only [Option.isSome_some] at hold
          simp only [Option.isSome_some]
          constructor
          · intro _
            have := hold.mp trivial
            omega
          · intro _
            exact trivial
      obtain ⟨ho, hn, hiv2⟩ := ih ⟨sc.forks ++ [(sc.nextHandle, lastRawChunk cys "")],
        sc.nextHandle + 1⟩ sysC h1A hinvA
      refine ⟨?_, ?_, ?_⟩
      · simpa [handleOutputs, handleSeq, forkCount] using ho
      · simp only [forkCount]
        simp at hn
        omega
      · intro h2
        have := hiv2 h2
        simp only [forkCount]
        simp at this ⊢
        constructor
        · intro hx
          have := this.mp hx
          omega
        · intro hx
          refine this.mpr ?_
          omega

/-- The state record a run registers for a root started with prompt p
and initial history ms, given its allocated id. -/
def rootState (id : Nat) (p : String) (ms : List Msg) : AgentState :=
  { agentId := id, parentId := none, userContent := p, userComment := "unchanged",
    status := .running, subagents := [], messages := ms, result := none, createdAt := 0 }

/-! ## Claim theorems -/

set_option maxRecDepth 4000

theorem body_stubEnv (fuel : Nat) (env : Env) (p q S : String) (ms : List Msg)
    (hp : p ≠ "") (hq : q ≠ "")
    (hh : env.handler = some (fun _ _ => none))
    (hiv : env.interv = none)
    (hclar : env.needsClarV3 p = .ok (some q))
    (hsq : ∀ c m, env.syncQ c m = .ok none)
    (hsub : ∀ c m, env.subqRaw c m = .ok "NONE")
    (hmc : ∀ m, env.mainChunks m = .ok [])
    (hcm : ∀ k, env.commentAt k = none)
    (hsum : ∀ a rs, env.summarizeRaw a rs = .ok S)
    (hshot : env.finalShot = .ok ())
    (id : Nat) (sysb : Sys)
    (hreg : treeLookup sysb.tree id = some (rootState id p ms)) :
    ∃ sysF t,
      V3.body (V3.agentRun fuel env) env id { prompt := some p, messages := ms }
          (rootState id p ms) sysb
        = (sysF,
           [(id, Chunk.stateSnap (snapOf (rootState id p ms))),
            (id, Chunk.stateSnap ⟨id, none, p, "unchanged", .completed, [], some S, 0⟩)],
           .ok S)
      ∧ sysF.tree = treeRemove t id := by
  have hclarEq := clarStep_absent hh hiv hclar hp hq hreg rfl ms
  have hregq : treeLookup ({ sysb with
      queries := sysb.queries ++ [(id, "Please clarify: " ++ q)] } : Sys).tree id
      = some (rootState id p ms) := hreg
  obtain ⟨sys2, hloop, htree2, -, -, -⟩ :=
    blockingLoop_absent hh hiv (fun c m => ⟨none, hsq c m⟩) 3 hregq rfl
  have hreg2 : treeLookup sys2.tree id = some (rootState id p ms) := by
    rw [htree2]
    exact hregq
  have hag : (rootState id p ms).agentId = id := rfl
  have huc : (rootState id p ms).userComment = "unchanged" := rfl
  have hres : (rootState id p ms).result = none := rfl
  have hmut1 : mutSt ({ sysb with
      queries := sysb.queries ++ [(id, "Please clarify: " ++ q)] } : Sys)
      (rootState id p ms)
      = { sysb with queries := sysb.queries ++ [(id, "Please clarify: " ++ q)] } := by
    simp only [mutSt, hag]
    rw [treeMutate_self hreg]
  have hmut2 : mutSt sys2 (rootState id p ms) = sys2 := by
    simp only [mutSt, hag]
    rw [treeMutate_self hreg2]
  have hNONE : parseSubquestions "NONE" = [] := by decide
  simp only [V3.body, hclarEq]
  simp only [applyCommentWrite, hcm 0, hcm 1]
  rw [hmut1]
  rw [huc]
  rw [if_neg (by decide : ¬ ("unchanged" : String) = "delete")]
  rw [hloop]
  simp only [generateAsyncSubquestions, hsub, hNONE]
  rw [hmut2]
  rw [huc]
  rw [if_neg (by decide : ¬ ("unchanged" : String) = "delete")]
  rw [if_neg hp]
  rw [hmc]
  simp only [V3.mainLoop, V3.drainChildren, V3.finish, List.map_nil, collectSubResults,
    strOrEmpty, optTruthy, hres]
  rw [hsum]
  dsimp only
  simp only [Bool.false_eq_true, if_false]
  cases hNM : needsMoreFlagV3 S with
  | true =>
    simp only [hNM, if_true]
    rw [hsq]
    dsimp only [optTruthy]
    simp only [Bool.false_eq_true, if_false]
    simp only [V3.completeWith, hshot]
    dsimp only [strOrEmpty]
    exact ⟨_, _, rfl, rfl⟩
  | false =>
    simp only [hNM, Bool.false_eq_true, if_false]
    simp only [V3.completeWith, hshot]
    dsimp only [strOrEmpty]
    exact ⟨_, _, rfl, rfl⟩

/-- C1: in the V2 revision cited by the claim, a task whose goal is
judged ambiguous and whose clarification query resolves to an absent
answer reaches the terminal status completed, yet its entry is not
removed from the tree registry before the run returns: the final registry
still maps the task id to the completed record.  This theorem evaluates
the run at that failing input. -/
theorem v2AbsentClarificationLeavesEntry :
    (V2.agentRun 2 stubEnv { prompt := some "maybe plant tomatoes" } sys0).2.2
        = Outcome.ret "User did not provide clarification"
    ∧ treeLookup (V2.agentRun 2 stubEnv { prompt := some "maybe plant tomatoes" } sys0).1.tree 0
        = some { agentId := 0, parentId := none, userContent := "maybe plant tomatoes",
                 userComment := "unchanged", status := .completed, subagents := [],
                 messages := [], result := some "User did not provide clarification",
                 createdAt := 0 }
    ∧ lastSnapFor (V2.agentRun 2 stubEnv { prompt := some "maybe plant tomatoes" } sys0).2.1 0
        = some ⟨0, none, "maybe plant tomatoes", "unchanged", .completed, [],
                some "User did not provide clarification", 0⟩ := by
  decide

/-- C2: a fork call spawns exactly one child task whose starting history
is the parent history plus a user message carrying the prompt, the child
reaches the terminal status completed with result S before wait can
return, but the text wait returns is the empty string, not the child
result: the consuming loop only keeps bare string chunks and the streams
never yield one, while the generator return value is discarded.  This
theorem evaluates fork and wait at that failing input. -/
theorem forkWaitDropsChildResult :
    (fork 2 envC2 parentSt initialScope sysP "X").1 = ⟨[(1, "")], 2⟩
    ∧ (fork 2 envC2 parentSt initialScope sysP "X").2.1.regs
        = [(1, [⟨"user", "ctx"⟩, ⟨"user", "X"⟩])]
    ∧ (V3.agentRun 2 envC2 childInputC2 sysP).2.2 = Outcome.ret "S"
    ∧ lastSnapFor (V3.agentRun 2 envC2 childInputC2 sysP).2.1 1
        = some ⟨1, some 0, "", "unchanged", .completed, [], some "S", 0⟩
    ∧ wait (fork 2 envC2 parentSt initialScope sysP "X").1 1 = .ok ""
    ∧ ("" : String) ≠ "S" := by
  decide

/-- C3 counterexample: the fork map and handle counter live in the tool
scope of runMainAgent, outside executePython, so they persist across
script executions.  In a second execution of the same task the first fork
returns handle 2, not 1, and wait on handle 1 — issued only in the first
execution — succeeds instead of raising. -/
theorem forkHandlesLeakAcrossExecutions :
    (runSandboxOps 2 stubEnv parentSt [SbOp.fork "B", SbOp.wait 1]
        (runSandboxOps 2 stubEnv parentSt [SbOp.fork "A"] initialScope sysP).1
        (runSandboxOps 2 stubEnv parentSt [SbOp.fork "A"] initialScope sysP).2.1).2.2
      = [Except.ok (SbVal.handle 2), Except.ok (SbVal.text "")]
    ∧ (2 : Nat) ≠ 1 := by
  decide

/-- C3 amended: fork handles are strictly increasing integers starting at
1 within one task tool scope — the scope shared by all script executions
of that runMainAgent call, not reset per execution — and wait succeeds
exactly on the handles issued so far in that scope, raising the
unknown-handle error on all others. -/
theorem forkHandlesMonotonicInToolScope (fuel : Nat) (env : Env) (st : AgentState)
    (ops : List SbOp) (sys : Sys) :
    handleOutputs (runSandboxOps fuel env st ops initialScope sys).2.2
        = handleSeq 1 (forkCount ops)
    ∧ (runSandboxOps fuel env st ops initialScope sys).1.nextHandle = 1 + forkCount ops
    ∧ ∀ h, (wait (runSandboxOps fuel env st ops initialScope sys).1 h).isOk = true
        ↔ (1 ≤ h ∧ h < 1 + forkCount ops) := by
  have hbase := runSandboxOps_scope fuel env st ops initialScope sys (by simp [initialScope])
    (by intro h; simp [initialScope, lookupFork]; omega)
  refine ⟨hbase.1, hbase.2.1, ?_⟩
  intro h
  rw [wait_isOk]
  exact hbase.2.2 h

/-- C5 counterexample: with an oracle that always has a blocking question
and a responder that always gives an absent answer, the loop does not end
at the first absent answer: three blocking queries are delivered — the
claim as stated would allow only one — and the task still proceeds to
completed. -/
theorem absentAnswerDoesNotEndBlockingLoop :
    (V3.agentRun 2 envC5 { prompt := some "go" } sys0).1.queries
        = [(0, "Q?"), (0, "Q?"), (0, "Q?")]
    ∧ (V3.agentRun 2 envC5 { prompt := some "go" } sys0).2.2 = Outcome.ret ""
    ∧ lastSnapFor (V3.agentRun 2 envC5 { prompt := some "go" } sys0).2.1 0
        = some ⟨0, none, "go", "unchanged", .completed, [], some "", 0⟩
    ∧ (3 : Nat) ≠ 1 := by
  decide

/-- C6: the subquestion parse never yields more than four subquestions,
whatever the oracle returns; a NONE response yields none; and the fan-out
spawns exactly one child per parsed subquestion, hence at most four. -/
theorem subquestionFanOutCappedAtFour :
    (∀ raw : String, (parseSubquestions raw).length ≤ 4)
    ∧ parseSubquestions "NONE" = []
    ∧ ∀ (sys : Sys) (st : AgentState) (raw : String),
        (spawnSubagents sys st (parseSubquestions raw)).2.2.length ≤ 4 := by
  refine ⟨parseSubquestions_length_le, by decide, ?_⟩
  intro sys st raw
  rw [spawnSubagents_length]
  exact parseSubquestions_length_le raw

/-- C7: queryUser on a registered task sets the status to awaiting-user
at the start of the suspension, delivers the prompt to the handler, and
on resumption the status reverts to running unless a concurrent
intervention changed it to something other than awaiting-user, in which
case the intervened status is left unchanged. -/
theorem queryUserStatusProtocol (h : Nat → String → Option String) (iv : Option Overrides)
    (tree : Tree) (id : Nat) (st : AgentState) (prompt : String)
    (hreg : treeLookup tree id = some st) :
    (queryUser (some h) iv tree id prompt).delivered = true
    ∧ treeLookup (queryUser (some h) iv tree id prompt).begun id
        = some { st with status := .awaitingUser }
    ∧ (queryUser (some h) iv tree id prompt).answer = h id prompt
    ∧ (treeLookup (queryUser (some h) iv tree id prompt).final id).map AgentState.status
        = some (match iv with
            | none => .running
            | some ov =>
              match ov.status with
              | none => .running
              | some s => if s = .awaitingUser then .running else s) := by
  have hA := treeLookup_treeMutate_self hreg ({ st with status := .awaitingUser })
  refine ⟨by simp [queryUser, hreg], by simp [queryUser, hreg, hA],
          by simp [queryUser, hreg], ?_⟩
  match iv with
  | none =>
    simp only [queryUser, hreg, hA]
    simp [treeMutate_treeMutate, treeLookup_treeMutate_self hreg, hA]
  | some ov =>
    rcases ov with ⟨oc, ocn, os⟩
    simp only [queryUser, hreg, userIntervention, hA]
    match os with
    | none =>
      cases oc <;> cases ocn <;>
        simp [treeMutate_treeMutate, treeLookup_treeMutate_self hreg]
    | some s =>
      by_cases hs : s = .awaitingUser
      · subst hs
        cases oc <;> cases ocn <;>
          simp [treeMutate_treeMutate, treeLookup_treeMutate_self hreg]
      · cases oc <;> cases ocn <;>
          simp [treeMutate_treeMutate, treeLookup_treeMutate_self hreg, hs]

/-- Witness for C7 at a concrete registered task, with an intervention
that rewrites the status to deleted while the task is suspended. -/
theorem queryUserStatusProtocolWitness :
    treeLookup [(0, stRoot "go")] 0 = some (stRoot "go")
    ∧ ((queryUser (some (fun _ _ => some "ans"))
          (some { status := some .deleted }) [(0, stRoot "go")] 0 "what").delivered = true
      ∧ treeLookup (queryUser (some (fun _ _ => some "ans"))
          (some { status := some .deleted }) [(0, stRoot "go")] 0 "what").begun 0
          = some { stRoot "go" with status := .awaitingUser }
      ∧ (queryUser (some (fun _ _ => some "ans"))
          (some { status := some .deleted }) [(0, stRoot "go")] 0 "what").answer
          = (fun (_ : Nat) (_ : String) => some "ans") 0 "what"
      ∧ (treeLookup (queryUser (some (fun _ _ => some "ans"))
          (some { status := some .deleted }) [(0, stRoot "go")] 0 "what").final 0).map
            AgentState.status
          = some (match (some { status := some .deleted } : Option Overrides) with
              | none => AgentStatus.running
              | some ov =>
                match ov.status with
                | none => AgentStatus.running
                | some s => if s = .awaitingUser then .running else s)) :=
  ⟨by decide,
   queryUserStatusProtocol (fun _ _ => some "ans") (some { status := some .deleted })
     [(0, stRoot "go")] 0 (stRoot "go") "what" (by decide)⟩

/-- C9: with no registered query handler, queryUser returns an absent
answer immediately: nothing is delivered, the registry is untouched, and
the status is never set to awaiting-user. -/
theorem queryUserWithoutHandlerIsImmediateAbsent (iv : Option Overrides) (tree : Tree)
    (id : Nat) (prompt : String) :
    queryUser none iv tree id prompt = ⟨tree, tree, none, false⟩ := rfl

/-- C4: for a task started with a goal the oracle judges ambiguous, an
absent answer to the clarification query is not fatal: the clarification
step leaves the content and history unchanged, the run continues through
the remaining steps with the original goal text, and still reaches
completed, with the summary as its result and the entry evicted. -/
theorem absentClarificationProceedsToCompletion
    (fuel : Nat) (env : Env) (p q S : String) (ms : List Msg) (sys : Sys)
    (hp : p ≠ "") (hq : q ≠ "")
    (hh : env.handler = some (fun _ _ => none))
    (hiv : env.interv = none)
    (hclar : env.needsClarV3 p = .ok (some q))
    (hsq : ∀ c m, env.syncQ c m = .ok none)
    (hsub : ∀ c m, env.subqRaw c m = .ok "NONE")
    (hmc : ∀ m, env.mainChunks m = .ok [])
    (hcm : ∀ k, env.commentAt k = none)
    (hsum : ∀ a rs, env.summarizeRaw a rs = .ok S)
    (hshot : env.finalShot = .ok ()) :
    (V3.agentRun (fuel + 1) env { prompt := some p, messages := ms } sys).2.2 = Outcome.ret S
    ∧ treeLookup (V3.agentRun (fuel + 1) env { prompt := some p, messages := ms } sys).1.tree
        sys.nextId = none
    ∧ lastSnapFor (V3.agentRun (fuel + 1) env { prompt := some p, messages := ms } sys).2.1
        sys.nextId
        = some ⟨sys.nextId, none, p, "unchanged", .completed, [], some S, 0⟩
    ∧ ∀ (sysq : Sys) (stq : AgentState), treeLookup sysq.tree stq.agentId = some stq →
        stq.status = .running →
        (V3.clarStep env stq.agentId { prompt := some p, messages := ms } stq sysq).2
          = .ok stq := by
  have hreg : treeLookup (treeSet sys.tree sys.nextId (rootState sys.nextId p ms)) sys.nextId
      = some (rootState sys.nextId p ms) := treeLookup_treeSet_self _ _ _
  obtain ⟨sysF, t, hbody, htree⟩ := body_stubEnv fuel env p q S ms hp hq hh hiv hclar
    hsq hsub hmc hcm hsum hshot sys.nextId
    { sys with
      nextId := sys.nextId + 1,
      tree := treeSet sys.tree sys.nextId (rootState sys.nextId p ms),
      regs := sys.regs ++ [(sys.nextId, ms)] } hreg
  have hrun : V3.agentRun (fuel + 1) env { prompt := some p, messages := ms } sys
      = (sysF,
         [(sys.nextId, Chunk.stateSnap (snapOf (rootState sys.nextId p ms))),
          (sys.nextId,
           Chunk.stateSnap ⟨sys.nextId, none, p, "unchanged", .completed, [], some S, 0⟩)],
         Outcome.ret S) := by
    simp only [V3.agentRun]
    rw [show initTask { prompt := some p, messages := ms } sys
        = ({ sys with
             nextId := sys.nextId + 1,
             tree := treeSet sys.tree sys.nextId (rootState sys.nextId p ms),
             regs := sys.regs ++ [(sys.nextId, ms)] },
           sys.nextId, rootState sys.nextId p ms) from rfl]
    dsimp only [V3.gate]
    rw [hbody]
  refine ⟨?_, ?_, ?_, fun sysq stq hregq hstq => by
    rw [clarStep_absent hh hiv hclar hp hq hregq hstq ms]⟩
  · rw [hrun]
  · rw [hrun]
    rw [htree]
    exact treeLookup_treeRemove_self _ _
  · rw [hrun]
    simp [lastSnapFor]

/-- Witness for C4: a concrete ambiguous goal, an absent answer, and the
run still completes with the stub summary. -/
theorem absentClarificationProceedsToCompletionWitness :
    (V3.agentRun 1 envC4 { prompt := some "plant tomatoes", messages := [] } sys0).2.2
        = Outcome.ret "done"
    ∧ treeLookup
        (V3.agentRun 1 envC4 { prompt := some "plant tomatoes", messages := [] } sys0).1.tree 0
        = none
    ∧ lastSnapFor
        (V3.agentRun 1 envC4 { prompt := some "plant tomatoes", messages := [] } sys0).2.1 0
        = some ⟨0, none, "plant tomatoes", "unchanged", .completed, [], some "done", 0⟩ := by
  have h := absentClarificationProceedsToCompletion 0 envC4 "plant tomatoes" "Which kind?"
    "done" [] sys0 (by decide) (by decide) rfl rfl rfl (fun _ _ => rfl) (fun _ _ => rfl)
    (fun _ => rfl) (fun _ => rfl) (fun _ _ => rfl) rfl
  exact ⟨h.1, h.2.1, h.2.2.1⟩

/-- C5 amended: the blocking-question phase asks the oracle at most three
times in every environment, and an absent answer is not fatal: under
absent answers the loop never raises and never finalizes the task — it
continues through its iterations with the task state unchanged and the
run proceeds with what it has. -/
theorem blockingLoopBoundedAndNonfatal (env : Env) (id : Nat) (st : AgentState) (sys : Sys)
    (hh : env.handler = some (fun _ _ => none)) (hiv : env.interv = none)
    (hq : ∀ c m, ∃ r, env.syncQ c m = .ok r)
    (hreg : treeLookup sys.tree id = some st) (hst : st.status = .running) :
    (∀ (env2 : Env) (id2 : Nat) (st2 : AgentState) (sys2 : Sys),
        (V3.blockingLoop env2 id2 3 st2 sys2).1.syncCalls ≤ sys2.syncCalls + 3)
    ∧ ∃ sys3, V3.blockingLoop env id 3 st sys = (sys3, .ok st) ∧ sys3.tree = sys.tree := by
  refine ⟨fun env2 id2 st2 sys2 => blockingLoop_syncCalls_le env2 id2 3 st2 sys2, ?_⟩
  obtain ⟨sys3, heq, htree, -, -, -⟩ := blockingLoop_absent hh hiv hq 3 hreg hst
  exact ⟨sys3, heq, htree⟩

/-- Witness for the amended C5 at a concrete environment whose oracle
always has a blocking question and whose responder never answers. -/
theorem blockingLoopBoundedAndNonfatalWitness :
    (V3.blockingLoop envC5 0 3 (stRoot "go") sysW).1.syncCalls ≤ sysW.syncCalls + 3
    ∧ (V3.blockingLoop envC5 0 3 (stRoot "go") sysW).2 = .ok (stRoot "go")
    ∧ (V3.blockingLoop envC5 0 3 (stRoot "go") sysW).1.tree = sysW.tree := by
  have h := blockingLoopBoundedAndNonfatal envC5 0 (stRoot "go") sysW rfl rfl
    (fun c m => ⟨some "Q?", rfl⟩) (by decide) rfl
  obtain ⟨hb, sys3, heq, htree⟩ := h
  refine ⟨hb envC5 0 (stRoot "go") sysW, ?_, ?_⟩
  · rw [heq]
  · rw [heq]
    exact htree

/-- C8: when the guarded body of a run raises an uncaught failure, the
run transitions the task directly to status error with the message as its
result, emits that final snapshot, evicts the entry from the registry,
and returns the message normally instead of propagating the exception. -/
theorem errorPathEvictsAndReturnsNormally (fuel : Nat) (env : Env) (input : AgentInput)
    (sys sysE : Sys) (ys : List (Nat × Chunk)) (e : String) (stE : AgentState)
    (hmp : input.masterPrompt = none)
    (hbody : V3.body (V3.agentRun fuel env) env (initTask input sys).2.1 input
        (initTask input sys).2.2 (initTask input sys).1 = (sysE, ys, .err e stE)) :
    (V3.agentRun (fuel + 1) env input sys).2.2 = Outcome.ret e
    ∧ treeLookup (V3.agentRun (fuel + 1) env input sys).1.tree (initTask input sys).2.1 = none
    ∧ lastSnapFor (V3.agentRun (fuel + 1) env input sys).2.1 (initTask input sys).2.1
        = some (snapOf { stE with status := .error, result := some e }) := by
  rcases hI : initTask input sys with ⟨sys1, id, st0⟩
  rw [hI] at hbody
  have hgate : V3.gate env input id st0 sys1 = .proceed sys1 := by
    unfold V3.gate
    rw [hmp]
  have hrun : V3.agentRun (fuel + 1) env input sys
      = ({ sysE with tree := treeRemove (treeMutate sysE.tree id
              { stE with status := .error, result := some e }) id },
         ys ++ [(id, Chunk.stateSnap (snapOf { stE with status := .error, result := some e }))],
         Outcome.ret e) := by
    simp only [V3.agentRun, hI, hgate, hbody]
    rfl
  refine ⟨?_, ?_, ?_⟩
  · rw [hrun]
  · rw [hrun]
    exact treeLookup_treeRemove_self _ _
  · rw [hrun]
    exact lastSnapFor_append_snap _ _ _

/-- Witness for C8: the blocking-question oracle call fails, the run
still returns normally with the task finalized as error and evicted. -/
theorem errorPathEvictsAndReturnsNormallyWitness :
    (V3.agentRun 1 envC8 { prompt := some "go" } sys0).2.2
        = Outcome.ret "oracle transport failure"
    ∧ treeLookup (V3.agentRun 1 envC8 { prompt := some "go" } sys0).1.tree 0 = none
    ∧ lastSnapFor (V3.agentRun 1 envC8 { prompt := some "go" } sys0).2.1 0
        = some (snapOf { stRoot "go" with
            status := .error,
            result := some "oracle transport failure" }) := by
  have h := errorPathEvictsAndReturnsNormally 0 envC8 { prompt := some "go" } sys0
    ⟨[(0, stRoot "go")], 1, [], [(0, [])], 1⟩
    [(0, Chunk.stateSnap (snapOf (stRoot "go")))]
    "oracle transport failure" (stRoot "go") rfl (by decide)
  exact h

/-- C10: wait neither mutates the tool scope nor the orchestrator state,
so a handle is not consumed by a first wait: a second wait on the same
handle returns the same memoized result text again. -/
theorem waitIsIdempotentAndNotConsumed (fuel : Nat) (env : Env) (st : AgentState)
    (sc : ForkScope) (sys : Sys) (h : Nat) :
    runSandboxOps fuel env st [SbOp.wait h, SbOp.wait h] sc sys
      = (sc, sys, [(wait sc h).map SbVal.text, (wait sc h).map SbVal.text]) := rfl

end Thread
